import Mathlib

set_option maxHeartbeats 1000000

/-!
Verification of the firecrawl-cli core subsystem: the bulk "map then scrape"
orchestrator (`src/commands/scrape.ts`), the browser session manager
(`src/commands/browser.ts`) and the single-slot session store
(`src/utils/browser-session.ts`), shallowly embedded in Lean.
-/

/-! ## String helpers (models of JavaScript string primitives, implemented as
structural recursions over `List Char` so they evaluate by kernel reduction) -/

/-- Is `pat` a contiguous sublist of `l`?  (Model of JS substring search.) -/
def listInfixOf (pat : List Char) : List Char → Bool
  | [] => pat.isEmpty
  | c :: rest => pat.isPrefixOf (c :: rest) || listInfixOf pat rest

/-- Model of JavaScript `String.prototype.includes`: substring containment. -/
def strContains (s pat : String) : Bool :=
  listInfixOf pat.toList s.toList

/-- Model of JavaScript `String.prototype.startsWith`. -/
def jsStartsWith (s pre : String) : Bool :=
  pre.toList.isPrefixOf s.toList

/-- Model of JavaScript `String.prototype.toLowerCase` (ASCII range, which is
all the source's patterns exercise). -/
def jsToLower (s : String) : String :=
  String.mk (s.toList.map Char.toLower)

/-- Model of JavaScript `split(' ')`: split on every single space character,
keeping empty fragments. -/
def splitSp : List Char → List (List Char)
  | [] => [[]]
  | c :: rest =>
    if c = ' ' then [] :: splitSp rest
    else
      match splitSp rest with
      | [] => [[c]]
      | h :: t => (c :: h) :: t

/-- Model of JavaScript `Array.prototype.join(' ')`. -/
def joinSp : List (List Char) → List Char
  | [] => []
  | [w] => w
  | w :: ws => w ++ ' ' :: joinSp ws

theorem listInfixOf_eq_true_iff (pat : List Char) (l : List Char) :
    listInfixOf pat l = true ↔ pat <:+: l := by
  induction l with
  | nil =>
    cases pat <;> simp [listInfixOf, List.isEmpty]
  | cons c rest ih =>
    simp [listInfixOf, List.infix_cons_iff, List.isPrefixOf_iff_prefix, ih,
      Bool.or_eq_true]

theorem strContains_iff (s pat : String) :
    strContains s pat = true ↔ pat.toList <:+: s.toList := by
  simp [strContains, listInfixOf_eq_true_iff]

/-! ## Session-expiry classification (`isSessionExpiredError`, browser.ts) -/

/-- A JS error value as observed by `isSessionExpiredError`: an optional
numeric `status` field and a `message` string (for non-`Error` values,
`String(error)` plays the role of the message). -/
structure ErrObj where
  status : Option Nat
  message : String

/-- Does the character list have a newline-free (possibly empty) segment
followed by the literal `closed`?  This is the `.*closed` tail of the
source regex `/session.*closed/` (JS `.` does not match a newline). -/
def noNlThenClosed : List Char → Bool
  | [] => false
  | c :: rest =>
    "closed".toList.isPrefixOf (c :: rest) || (c != '\n' && noNlThenClosed rest)

/-- Test of the source regex fragment `session.*closed`: an occurrence of
`session` followed, without an intervening newline, by `closed`. -/
def sessionThenClosed : List Char → Bool
  | [] => false
  | c :: rest =>
    ("session".toList.isPrefixOf (c :: rest) &&
      noNlThenClosed ((c :: rest).drop 7)) || sessionThenClosed rest

/-- Test of the source regex `/destroyed|expired|not found|gone|session.*closed/i`
applied to an already-lowercased message. -/
def expiredRegexTest (msg : String) : Bool :=
  strContains msg "destroyed" || strContains msg "expired" ||
  strContains msg "not found" || strContains msg "gone" ||
  sessionThenClosed msg.toList

/-- Model of `isSessionExpiredError` (browser.ts lines 153-161): HTTP status 410/404,
or the lowercased message matches the expiry regex. -/
def isSessionExpiredError (e : ErrObj) : Bool :=
  let msg := jsToLower e.message
  if e.status == some 410 || e.status == some 404 then true
  else expiredRegexTest msg

/-- Spec-side reading of 4.1b: status is 410 or 404, OR the message matches
(case-insensitively) one of "destroyed", "expired", "not found", "gone", or a
session-was-closed phrase. -/
def SessionExpiredSpec (e : ErrObj) : Prop :=
  e.status = some 410 ∨ e.status = some 404 ∨
  "destroyed".toList <:+: (jsToLower e.message).toList ∨
  "expired".toList <:+: (jsToLower e.message).toList ∨
  "not found".toList <:+: (jsToLower e.message).toList ∨
  "gone".toList <:+: (jsToLower e.message).toList ∨
  sessionThenClosed (jsToLower e.message).toList = true

/-! ## Local bash execution: `--cdp` auto-injection (`executeBashLocally`) -/

/-- The command-rewriting step of `executeBashLocally` (browser.ts lines
114-123): if the command starts with `agent-browser` and does not contain
`--cdp`, split on single spaces and splice `--cdp '<cdpUrl>'` in at index
`min 2 parts.length`; otherwise the command is unchanged. -/
def finalCommand (command cdpUrl : String) : String :=
  if jsStartsWith command "agent-browser" && !(strContains command "--cdp") then
    let parts := splitSp command.toList
    let insertIdx := min 2 parts.length
    String.mk (joinSp
      (parts.take insertIdx ++
        ["--cdp".toList, Char.ofNat 39 :: cdpUrl.toList ++ [Char.ofNat 39]] ++
        parts.drop insertIdx))
  else command

example : isSessionExpiredError ⟨some 404, ""⟩ = true := by decide
example : isSessionExpiredError ⟨none, "Session destroyed"⟩ = true := by decide
example : isSessionExpiredError ⟨some 200, "Invalid code"⟩ = false := by decide
example : isSessionExpiredError ⟨none, "The session was closed"⟩ = true := by decide
example :
    finalCommand "agent-browser click @e5" "wss://x" =
      "agent-browser click --cdp 'wss://x' @e5" := by decide
example : finalCommand "echo hi" "wss://x" = "echo hi" := by decide
example :
    finalCommand "agent-browser click --cdp u @e5" "wss://x" =
      "agent-browser click --cdp u @e5" := by decide
example : finalCommand "agent-browser" "u" = "agent-browser --cdp 'u'" := by decide

/-! ## Session store (`src/utils/browser-session.ts`)

The store is a single JSON file; its abstract state is `Option StoredBrowserSession`. -/

structure StoredBrowserSession where
  id : String
  cdpUrl : String
  createdAt : String

/-- Model of `saveBrowserSession`: writes the record to the single file, overwriting
any prior record. -/
def saveBrowserSession (_store : Option StoredBrowserSession)
    (session : StoredBrowserSession) : Option StoredBrowserSession :=
  some session

/-- Model of `loadBrowserSession`: reads the stored record, if any. -/
def loadBrowserSession (store : Option StoredBrowserSession) :
    Option StoredBrowserSession :=
  store

/-- Model of `clearBrowserSession`: deletes the session file. -/
def clearBrowserSession (_store : Option StoredBrowserSession) :
    Option StoredBrowserSession :=
  none

/-- JS truthiness of an optional string: `undefined` and `""` are falsy. -/
def truthy (o : Option String) : Option String :=
  match o with
  | some s => if s.isEmpty then none else some s
  | none => none

/-- Model of `getSessionId`: override takes precedence (when truthy), else the stored
record's id, else a thrown "no active session" error. -/
def getSessionId (store : Option StoredBrowserSession)
    (overrideId : Option String) : Except String String :=
  match truthy overrideId with
  | some id => Except.ok id
  | none =>
    match loadBrowserSession store with
    | some s => Except.ok s.id
    | none =>
      Except.error
        ("No active browser session. Launch one with: firecrawl browser launch\n" ++
          "Or specify a session ID with: --session <id>")

/-! ## `handleBrowserExecute` error path (browser.ts lines 246-294, non-bash) -/

/-- Payload of a successful `browserExecute` transport call. -/
structure ExecData where
  success : Bool
  errField : Option String

/-- Result of the remote call: resolved payload or thrown transport error. -/
inductive ExecOutcome where
  | ok (data : ExecData)
  | thrown (e : ErrObj)

/-- Observable outcome of the command: exit code, resulting store state, and
the error-stream messages. -/
structure ExecResult where
  exitCode : Nat
  store : Option StoredBrowserSession
  errMsgs : List String

/-- The session-expired remediation message printed by the catch handler. -/
def expiredMsg (sessionId : String) : String :=
  "Error: Session " ++ sessionId ++ " has expired or been destroyed.\n" ++
    "The session may have exceeded its TTL or been closed.\n" ++
    "Start a new session with: firecrawl browser launch"

/-- The session id shown in the catch handler:
`options.session || loadBrowserSession()?.id || 'unknown'`. -/
def shownSessionId (store : Option StoredBrowserSession)
    (overrideSession : Option String) : String :=
  match truthy overrideSession with
  | some id => id
  | none =>
    match loadBrowserSession store with
    | some s => if s.id.isEmpty then "unknown" else s.id
    | none => "unknown"

/-- Model of the non-bash branch of `handleBrowserExecute`: resolve the
session id (a throw lands in the same catch), run the remote call, and in the
catch classify the error; on a session-expired error print the remediation
message and clear the store only when no truthy override was passed. -/
def handleBrowserExecute (store : Option StoredBrowserSession)
    (overrideSession : Option String) (outcome : ExecOutcome) : ExecResult :=
  match getSessionId store overrideSession with
  | Except.error m =>
    if isSessionExpiredError ⟨none, m⟩ then
      ⟨1, if (loadBrowserSession store).isSome ∧ truthy overrideSession = none
            then clearBrowserSession store else store,
        [expiredMsg (shownSessionId store overrideSession)]⟩
    else ⟨1, store, ["Error: " ++ m]⟩
  | Except.ok _ =>
    match outcome with
    | ExecOutcome.ok data =>
      if data.success = false then
        ⟨1, store, ["Error: " ++ data.errField.getD "Unknown error"]⟩
      else
        ⟨0, store,
          match data.errField with
          | some er => ["Code error: " ++ er]
          | none => []⟩
    | ExecOutcome.thrown e =>
      if isSessionExpiredError e then
        ⟨1, if (loadBrowserSession store).isSome ∧ truthy overrideSession = none
              then clearBrowserSession store else store,
          [expiredMsg (shownSessionId store overrideSession)]⟩
      else ⟨1, store, ["Error: " ++ e.message]⟩

/-! ## Claims C6, C8, C9, C7 -/

theorem take_min_two {α : Type _} (l : List α) : l.take (min 2 l.length) = l.take 2 := by
  rcases le_total 2 l.length with h | h
  · rw [min_eq_left h]
  · rw [min_eq_right h, List.take_of_length_le h, List.take_of_length_le le_rfl]

theorem drop_min_two {α : Type _} (l : List α) : l.drop (min 2 l.length) = l.drop 2 := by
  rcases le_total 2 l.length with h | h
  · rw [min_eq_left h]
  · rw [min_eq_right h, List.drop_eq_nil_of_le le_rfl, List.drop_eq_nil_of_le h]

/-- C6: `isSessionExpiredError e` returns true iff e's status is 410 or 404 or
e's message matches, case-insensitively, "destroyed", "expired", "not found",
"gone" or a session-was-closed phrase; in particular status 404 and message
"Session destroyed" are classified expired, while status 200 with message
"Invalid code" is not. -/
theorem C6_isSessionExpiredError_correct :
    (∀ e : ErrObj, isSessionExpiredError e = true ↔ SessionExpiredSpec e) ∧
    isSessionExpiredError ⟨some 404, "boom"⟩ = true ∧
    isSessionExpiredError ⟨none, "Session destroyed"⟩ = true ∧
    isSessionExpiredError ⟨some 200, "Invalid code"⟩ = false := by
  refine ⟨?_, by decide, by decide, by decide⟩
  intro e
  by_cases h : e.status = some 410 ∨ e.status = some 404
  · simp only [isSessionExpiredError, SessionExpiredSpec]
    rcases h with h | h <;> simp [h]
  · push_neg at h
    simp only [isSessionExpiredError, SessionExpiredSpec, expiredRegexTest]
    have h1 : (e.status == some 410) = false := by
      simp [beq_eq_false_iff_ne, h.1]
    have h2 : (e.status == some 404) = false := by
      simp [beq_eq_false_iff_ne, h.2]
    simp [h1, h2, h.1, h.2, strContains_iff, Bool.or_eq_true]
    tauto

/-- C6 witness: the general equivalence applied at a concrete error. -/
theorem C6_isSessionExpiredError_correct_witness :
    isSessionExpiredError ⟨none, "it has EXPIRED"⟩ = true ↔
      SessionExpiredSpec ⟨none, "it has EXPIRED"⟩ :=
  C6_isSessionExpiredError_correct.1 ⟨none, "it has EXPIRED"⟩

/-- C8: a command starting with `agent-browser` and not containing `--cdp`
gets `--cdp '<cdpUrl>'` spliced in right after its first two space-separated
words; any other command is executed unchanged.  The spec's example command is
rewritten exactly as stated. -/
theorem C8_cdp_injection :
    (∀ cmd url : String,
      jsStartsWith cmd "agent-browser" = true →
      strContains cmd "--cdp" = false →
      finalCommand cmd url =
        String.mk (joinSp
          ((splitSp cmd.toList).take 2 ++
            ["--cdp".toList, Char.ofNat 39 :: url.toList ++ [Char.ofNat 39]] ++
            (splitSp cmd.toList).drop 2))) ∧
    (∀ cmd url : String,
      jsStartsWith cmd "agent-browser" = false ∨ strContains cmd "--cdp" = true →
      finalCommand cmd url = cmd) ∧
    finalCommand "agent-browser click @e5" "wss://x" =
      "agent-browser click --cdp 'wss://x' @e5" := by
  refine ⟨?_, ?_, by decide⟩
  · intro cmd url h1 h2
    simp only [finalCommand, h1, h2, Bool.not_false, Bool.and_self, if_true,
      take_min_two, drop_min_two]
  · intro cmd url h
    rcases h with h | h <;> simp [finalCommand, h]

/-- C8 witness: both implications applied at concrete commands. -/
theorem C8_cdp_injection_witness :
    finalCommand "agent-browser snapshot -o out" "wss://w" =
      String.mk (joinSp
        ((splitSp "agent-browser snapshot -o out".toList).take 2 ++
          ["--cdp".toList, Char.ofNat 39 :: "wss://w".toList ++ [Char.ofNat 39]] ++
          (splitSp "agent-browser snapshot -o out".toList).drop 2)) ∧
    finalCommand "echo hi" "wss://w" = "echo hi" :=
  ⟨C8_cdp_injection.1 "agent-browser snapshot -o out" "wss://w" (by decide) (by decide),
   C8_cdp_injection.2.1 "echo hi" "wss://w" (Or.inl (by decide))⟩

/-- C9: the session store is single-slot with last-write-wins: after saving
session 1 then session 2, resolving with no override yields the second id, and
(when the ids differ) the first id is no longer present anywhere in the store. -/
theorem C9_single_slot_store (store : Option StoredBrowserSession)
    (s1 s2 : StoredBrowserSession) :
    getSessionId (saveBrowserSession (saveBrowserSession store s1) s2) none =
      Except.ok s2.id ∧
    (s1.id ≠ s2.id →
      ∀ s ∈ saveBrowserSession (saveBrowserSession store s1) s2, s.id ≠ s1.id) := by
  constructor
  · rfl
  · intro hne s hs
    simp only [saveBrowserSession, Option.mem_def, Option.some_inj] at hs
    subst hs
    exact fun h => hne h.symm

/-- C9 witness: the theorem at two concrete launches. -/
theorem C9_single_slot_store_witness :
    getSessionId
        (saveBrowserSession (saveBrowserSession none ⟨"a1", "wss://1", "t1"⟩)
          ⟨"b2", "wss://2", "t2"⟩) none = Except.ok "b2" ∧
      ∀ s ∈ saveBrowserSession (saveBrowserSession none ⟨"a1", "wss://1", "t1"⟩)
          ⟨"b2", "wss://2", "t2"⟩, s.id ≠ "a1" :=
  ⟨(C9_single_slot_store none ⟨"a1", "wss://1", "t1"⟩ ⟨"b2", "wss://2", "t2"⟩).1,
   (C9_single_slot_store none ⟨"a1", "wss://1", "t1"⟩ ⟨"b2", "wss://2", "t2"⟩).2
     (by decide)⟩

/-- C7: when the remote execute call throws an error classified as session
expired, the store is cleared exactly when no truthy session-id override was
passed; with an override the store is untouched; in both cases the single
error message names the shown session id and suggests `firecrawl browser
launch`. -/
theorem C7_expired_cleanup (store : Option StoredBrowserSession)
    (ov : Option String) (e : ErrObj) (sid0 : String)
    (hexp : isSessionExpiredError e = true)
    (hres : getSessionId store ov = Except.ok sid0) :
    (handleBrowserExecute store ov (ExecOutcome.thrown e)).exitCode = 1 ∧
    (truthy ov = none →
      (handleBrowserExecute store ov (ExecOutcome.thrown e)).store = none) ∧
    (∀ id, truthy ov = some id →
      (handleBrowserExecute store ov (ExecOutcome.thrown e)).store = store) ∧
    (handleBrowserExecute store ov (ExecOutcome.thrown e)).errMsgs =
      [expiredMsg (shownSessionId store ov)] ∧
    (shownSessionId store ov).toList <:+:
      (expiredMsg (shownSessionId store ov)).toList ∧
    "firecrawl browser launch".toList <:+:
      (expiredMsg (shownSessionId store ov)).toList := by
  have hrun :
      handleBrowserExecute store ov (ExecOutcome.thrown e) =
        ⟨1, if (loadBrowserSession store).isSome ∧ truthy ov = none
              then clearBrowserSession store else store,
          [expiredMsg (shownSessionId store ov)]⟩ := by
    unfold handleBrowserExecute
    rw [hres]
    simp [hexp]
  refine ⟨by rw [hrun], ?_, ?_, by rw [hrun], ?_, ?_⟩
  · intro hov
    rw [hrun]
    simp only [hov, and_true, clearBrowserSession]
    cases hst : store with
    | none => simp
    | some s => simp [loadBrowserSession]
  · intro id hov
    rw [hrun]
    simp [hov]
  · refine ⟨"Error: Session ".toList, ?_, ?_⟩
    · exact (" has expired or been destroyed.\n" ++
        "The session may have exceeded its TTL or been closed.\n" ++
        "Start a new session with: firecrawl browser launch").toList
    · simp [expiredMsg, String.toList]
  · refine ⟨("Error: Session " ++ shownSessionId store ov ++
      " has expired or been destroyed.\n" ++
      "The session may have exceeded its TTL or been closed.\n" ++
      "Start a new session with: ").toList, [], ?_⟩
    simp [expiredMsg, String.toList]

/-- C7 witness: the theorem at a stored session, no override, and a thrown
404 error. -/
theorem C7_expired_cleanup_witness :
    (handleBrowserExecute (some ⟨"sid1", "wss://1", "t"⟩) none
        (ExecOutcome.thrown ⟨some 404, "boom"⟩)).exitCode = 1 ∧
    (truthy none = none →
      (handleBrowserExecute (some ⟨"sid1", "wss://1", "t"⟩) none
        (ExecOutcome.thrown ⟨some 404, "boom"⟩)).store = none) ∧
    (∀ id, truthy none = some id →
      (handleBrowserExecute (some ⟨"sid1", "wss://1", "t"⟩) none
        (ExecOutcome.thrown ⟨some 404, "boom"⟩)).store = some ⟨"sid1", "wss://1", "t"⟩) ∧
    (handleBrowserExecute (some ⟨"sid1", "wss://1", "t"⟩) none
        (ExecOutcome.thrown ⟨some 404, "boom"⟩)).errMsgs =
      [expiredMsg (shownSessionId (some ⟨"sid1", "wss://1", "t"⟩) none)] ∧
    (shownSessionId (some ⟨"sid1", "wss://1", "t"⟩) none).toList <:+:
      (expiredMsg (shownSessionId (some ⟨"sid1", "wss://1", "t"⟩) none)).toList ∧
    "firecrawl browser launch".toList <:+:
      (expiredMsg (shownSessionId (some ⟨"sid1", "wss://1", "t"⟩) none)).toList :=
  C7_expired_cleanup (some ⟨"sid1", "wss://1", "t"⟩) none ⟨some 404, "boom"⟩
    "sid1" (by decide) (by rfl)

/-! ## Bulk scrape orchestrator (`handleAllScrapeCommand`, scrape.ts 628-891)

URL parsing (`new URL(url).pathname`) is a platform collaborator; it is
modelled by an oracle `parse : String → Option String` returning the
pathname, or `none` when the constructor throws. -/

/-- Scrape options relevant to the orchestrator's flag detection. -/
structure ScrapeOpts where
  formats : List String
  screenshot : Bool
  fullPageScreenshot : Bool
  onlyMainContent : Bool
deriving DecidableEq

/-- The bulk-mode options (`AllScrapeOptions`). -/
structure AllScrapeOpts where
  limit : Option Nat
  yes : Bool
  includePaths : Option (List String)
  excludePaths : Option (List String)
deriving DecidableEq

/-- Model of `hasExplicitFlags` (scrape.ts lines 664-674): true when any explicit
scraping flag was supplied; the format check is `formats.length > 0 &&
formats[0] !== 'markdown'`. -/
def hasExplicitFlags (opts : ScrapeOpts) (all : AllScrapeOpts) : Bool :=
  all.yes || all.limit.isSome || all.includePaths.isSome || all.excludePaths.isSome ||
  (match opts.formats with
   | [] => false
   | f :: _ => f != "markdown") ||
  opts.screenshot || opts.fullPageScreenshot || opts.onlyMainContent

/-- The wizard gate (scrape.ts line 676): `!hasExplicitFlags && process.stdin.isTTY`. -/
def wizardEntered (opts : ScrapeOpts) (all : AllScrapeOpts) (isTTY : Bool) : Bool :=
  !(hasExplicitFlags opts all) && isTTY

/-- The include-path filter applied in the flag branch (scrape.ts 685-693):
keep a URL iff its parsed pathname starts with some include prefix; a URL
whose parse throws is dropped. -/
def includeFilterStep (parse : String → Option String)
    (includePaths : Option (List String)) (urls : List String) : List String :=
  match includePaths with
  | some ps =>
    if 0 < ps.length then
      urls.filter (fun url =>
        match parse url with
        | some pathname => ps.any (fun p => jsStartsWith pathname p)
        | none => false)
    else urls
  | none => urls

/-- The exclude-path filter (scrape.ts 696-705): drop a URL iff its parsed
pathname starts with some exclude prefix; a URL whose parse throws is kept. -/
def excludeFilterStep (parse : String → Option String)
    (excludePaths : Option (List String)) (urls : List String) : List String :=
  match excludePaths with
  | some ps =>
    if 0 < ps.length then
      urls.filter (fun url =>
        match parse url with
        | some pathname => !(ps.any (fun p => jsStartsWith pathname p))
        | none => true)
    else urls
  | none => urls

/-- Model of JavaScript `parseInt(s, 10)`: skip leading whitespace, optional
sign, then a maximal digit run; `NaN` (here `none`) when no digits follow. -/
def parseIntJs (s : String) : Option Int :=
  let isWs := fun (c : Char) => c == ' ' || c == '\t' || c == '\n' || c == '\r'
  let isDig := fun (c : Char) => 48 ≤ c.toNat && c.toNat ≤ 57
  let digitsVal := fun (ds : List Char) =>
    ds.foldl (fun (a : Nat) c => a * 10 + (c.toNat - 48)) 0
  match s.toList.dropWhile isWs with
  | [] => none
  | c :: rest =>
    if c = '-' then
      let ds := rest.takeWhile isDig
      if ds.isEmpty then none else some (-(digitsVal ds : Int))
    else if c = '+' then
      let ds := rest.takeWhile isDig
      if ds.isEmpty then none else some ((digitsVal ds : Int))
    else
      let ds := (c :: rest).takeWhile isDig
      if ds.isEmpty then none else some ((digitsVal ds : Int))

/-- Environment of one orchestrator run: the collaborator results it consumes.
`mapLinks` is the map call's URL list (`none` for a failed map), `wizardUrls`
is the interactive wizard's URL selection, `statusCredits` the account's
remaining credits (if reported), `answer` the confirmation reply (already
trimmed by `ask`), and `scrapeOk` the per-URL outcome of `executeScrape`. -/
structure ScrapeEnv where
  mapLinks : Option (List String)
  isTTY : Bool
  wizardUrls : List String → List String
  statusCredits : Option Nat
  answer : String
  scrapeOk : String → Bool
  parse : String → Option String

/-- Observable outcome of one orchestrator run: process exit code, the URLs
for which a scrape call was issued, and the status-stream messages. -/
structure RunResult where
  exitCode : Nat
  attempted : List String
  messages : List String

/-- Filter phase (scrape.ts 676-706): the wizard when no explicit flags and a
TTY, otherwise the include/exclude flag filters. -/
def filterPhase (env : ScrapeEnv) (opts : ScrapeOpts) (all : AllScrapeOpts)
    (urls : List String) : List String :=
  if wizardEntered opts all env.isTTY then env.wizardUrls urls
  else
    excludeFilterStep env.parse all.excludePaths
      (includeFilterStep env.parse all.includePaths urls)

/-- Limit phase (scrape.ts 713-715): `if (limit && limit > 0) slice(0, limit)`. -/
def limitPhase (all : AllScrapeOpts) (urls : List String) : List String :=
  match all.limit with
  | some l => if 0 < l then urls.take l else urls
  | none => urls

/-- Preflight credit check (scrape.ts 721-731): fails iff the status reports
credits and more URLs than remaining credits are requested. -/
def creditFailure (env : ScrapeEnv) (urls : List String) : Bool :=
  match env.statusCredits with
  | some remaining => decide (remaining < urls.length)
  | none => false

/-- The preflight error message (scrape.ts 726-728). -/
def creditErrMsg (needed remaining : Nat) : String :=
  "Error: Not enough credits. Need " ++ toString needed ++ ", have " ++
    toString remaining ++ "."

/-- Confirmation phase (scrape.ts 733-751): skipped under `--yes`; a positive
numeric answer re-limits the URL list; any other non-"y" answer aborts
(`none`). -/
def confirmPhase (env : ScrapeEnv) (yes : Bool) (urls : List String) :
    Option (List String) :=
  if yes then some urls
  else
    match parseIntJs env.answer with
    | some n =>
      if 0 < n then some (urls.take n.toNat)
      else if jsToLower env.answer ≠ "y" then none else some urls
    | none => if jsToLower env.answer ≠ "y" then none else some urls

/-- Execution phase (scrape.ts 757-891, with per-URL persistence abstracted):
every URL is attempted, failures are counted, the final summary line carries a
failure tally, and the exit code is 1 iff every URL failed. -/
def execPhase (env : ScrapeEnv) (urls : List String) : RunResult :=
  let total := urls.length
  let errs := (urls.filter (fun u => !(env.scrapeOk u))).length
  { exitCode := if errs = total then 1 else 0
    attempted := urls
    messages :=
      ["Completed: " ++ toString (total - errs) ++ "/" ++ toString total ++
        " succeeded"] ++
      (if 0 < errs then [", " ++ toString errs ++ " failed"] else []) }

/-- Model of `handleAllScrapeCommand` (scrape.ts 628-891): map, filter, limit,
preflight, confirm, then the bounded scrape run. -/
def handleAllScrapeCommand (env : ScrapeEnv) (opts : ScrapeOpts)
    (all : AllScrapeOpts) : RunResult :=
  match env.mapLinks with
  | none => ⟨1, [], ["Error mapping site:"]⟩
  | some links =>
    if links.isEmpty then ⟨1, [], ["No URLs found on site."]⟩
    else
      let urls1 := filterPhase env opts all links
      if urls1.isEmpty then ⟨1, [], ["No URLs matched after filtering."]⟩
      else
        let urls2 := limitPhase all urls1
        if creditFailure env urls2 then
          ⟨1, [], [creditErrMsg urls2.length (env.statusCredits.getD 0)]⟩
        else
          match confirmPhase env all.yes urls2 with
          | none => ⟨0, [], ["Aborted."]⟩
          | some urls3 => execPhase env urls3

/-! ## Claims C2 and C10: the flag-driven path filters -/

theorem mem_includeFilterStep_of_parse (parse : String → Option String)
    (incl : Option (List String)) (urls : List String) (u p : String)
    (hp : parse u = some p) :
    u ∈ includeFilterStep parse incl urls ↔
      u ∈ urls ∧
        (incl.getD [] = [] ∨ ∃ q ∈ incl.getD [], jsStartsWith p q = true) := by
  cases incl with
  | none => simp [includeFilterStep]
  | some ps =>
    cases ps with
    | nil => simp [includeFilterStep]
    | cons q qs =>
      simp only [includeFilterStep, Nat.lt_irrefl, List.length_cons,
        Nat.succ_pos, if_true, List.mem_filter, hp, Option.getD_some]
      simp [List.any_eq_true]

theorem mem_excludeFilterStep_of_parse (parse : String → Option String)
    (excl : Option (List String)) (urls : List String) (u p : String)
    (hp : parse u = some p) :
    u ∈ excludeFilterStep parse excl urls ↔
      u ∈ urls ∧
        (excl.getD [] = [] ∨ ∀ q ∈ excl.getD [], jsStartsWith p q = false) := by
  cases excl with
  | none => simp [excludeFilterStep]
  | some ps =>
    cases ps with
    | nil => simp [excludeFilterStep]
    | cons q qs =>
      simp only [excludeFilterStep, List.length_cons, Nat.succ_pos, if_true,
        List.mem_filter, hp, Option.getD_some]
      simp [List.any_eq_false]

/-- C2: a URL whose pathname parses survives the flag-driven include/exclude
filtering iff (include absent/empty OR its path starts with some include
prefix) AND (exclude absent/empty OR its path starts with no exclude
prefix). -/
theorem C2_path_filter_correct (parse : String → Option String)
    (incl excl : Option (List String)) (urls : List String) (u p : String)
    (hp : parse u = some p) :
    u ∈ excludeFilterStep parse excl (includeFilterStep parse incl urls) ↔
      u ∈ urls ∧
        (incl.getD [] = [] ∨ ∃ q ∈ incl.getD [], jsStartsWith p q = true) ∧
        (excl.getD [] = [] ∨ ∀ q ∈ excl.getD [], jsStartsWith p q = false) := by
  rw [mem_excludeFilterStep_of_parse parse excl _ u p hp,
    mem_includeFilterStep_of_parse parse incl urls u p hp]
  tauto

/-- C2 witness: the spec's example — include prefix `/a` keeps exactly the
`/a` page. -/
theorem C2_path_filter_correct_witness :
    ("https://docs.x.com/a" ∈
        excludeFilterStep (fun s => if s = "https://docs.x.com/a" then some "/a"
            else some "/intro")
          none
          (includeFilterStep (fun s => if s = "https://docs.x.com/a" then some "/a"
              else some "/intro")
            (some ["/a"])
            ["https://docs.x.com/a", "https://docs.x.com/intro"]) ↔
      "https://docs.x.com/a" ∈
          ["https://docs.x.com/a", "https://docs.x.com/intro"] ∧
        ((some ["/a"]).getD [] = [] ∨
          ∃ q ∈ (some ["/a"]).getD [], jsStartsWith "/a" q = true) ∧
        ((none : Option (List String)).getD [] = [] ∨
          ∀ q ∈ (none : Option (List String)).getD [],
            jsStartsWith "/a" q = false)) :=
  C2_path_filter_correct
    (fun s => if s = "https://docs.x.com/a" then some "/a" else some "/intro")
    (some ["/a"]) none
    ["https://docs.x.com/a", "https://docs.x.com/intro"]
    "https://docs.x.com/a" "/a" (by decide)

/-- C10: a URL whose parse throws is dropped by a non-empty include filter,
kept by any exclude filter, and hence survives the combined flag filtering iff
the include list is absent or empty. -/
theorem C10_unparseable_url_asymmetry (parse : String → Option String)
    (incl excl : Option (List String)) (urls : List String) (u : String)
    (hp : parse u = none) :
    (∀ ps : List String, ps ≠ [] →
      u ∉ includeFilterStep parse (some ps) urls) ∧
    (∀ ps : List String, u ∈ urls →
      u ∈ excludeFilterStep parse (some ps) urls) ∧
    (u ∈ excludeFilterStep parse excl (includeFilterStep parse incl urls) ↔
      u ∈ urls ∧ incl.getD [] = []) := by
  have hincl : ∀ ps : List String, ps ≠ [] →
      u ∉ includeFilterStep parse (some ps) urls := by
    intro ps hne hmem
    cases ps with
    | nil => exact hne rfl
    | cons q qs =>
      simp only [includeFilterStep, List.length_cons, Nat.succ_pos, if_true,
        List.mem_filter, hp] at hmem
      exact absurd hmem.2 (by simp)
  have hexcl : ∀ ps : List String, u ∈ urls →
      u ∈ excludeFilterStep parse (some ps) urls := by
    intro ps hu
    cases ps with
    | nil => simpa [excludeFilterStep] using hu
    | cons q qs =>
      simp only [excludeFilterStep, List.length_cons, Nat.succ_pos, if_true,
        List.mem_filter, hp]
      simp [hu]
  refine ⟨hincl, hexcl, ?_⟩
  cases incl with
  | none =>
    simp only [includeFilterStep, Option.getD_none, and_true]
    cases excl with
    | none => simp [excludeFilterStep]
    | some ps =>
      constructor
      · intro hmem
        cases ps with
        | nil => simpa [excludeFilterStep] using hmem
        | cons q qs =>
          simp only [excludeFilterStep, List.length_cons, Nat.succ_pos,
            if_true, List.mem_filter] at hmem
          exact hmem.1
      · intro hu
        exact hexcl ps hu
  | some ps =>
    cases ps with
    | nil =>
      simp only [includeFilterStep, Nat.lt_irrefl, List.length_nil, if_neg
        (by omega : ¬ 0 < 0), Option.getD_some, and_true]
      cases excl with
      | none => simp [excludeFilterStep]
      | some qs =>
        constructor
        · intro hmem
          cases qs with
          | nil => simpa [excludeFilterStep] using hmem
          | cons r rs =>
            simp only [excludeFilterStep, List.length_cons, Nat.succ_pos,
              if_true, List.mem_filter] at hmem
            exact hmem.1
        · intro hu
          exact hexcl qs hu
    | cons q qs =>
      have hnot : u ∉ includeFilterStep parse (some (q :: qs)) urls :=
        hincl (q :: qs) (by simp)
      constructor
      · intro hmem
        exfalso
        apply hnot
        cases excl with
        | none => simpa [excludeFilterStep] using hmem
        | some rs =>
          cases rs with
          | nil => simpa [excludeFilterStep] using hmem
          | cons r rrs =>
            simp only [excludeFilterStep, List.length_cons, Nat.succ_pos,
              if_true, List.mem_filter] at hmem
            exact hmem.1
      · rintro ⟨_, h⟩
        simp at h

/-- C10 witness: a parse oracle that rejects `not a url`, one include prefix. -/
theorem C10_unparseable_url_asymmetry_witness :
    (∀ ps : List String, ps ≠ [] →
      "not a url" ∉
        includeFilterStep (fun _ => none) (some ps) ["not a url"]) ∧
    (∀ ps : List String, "not a url" ∈ (["not a url"] : List String) →
      "not a url" ∈ excludeFilterStep (fun _ => none) (some ps) ["not a url"]) ∧
    ("not a url" ∈
        excludeFilterStep (fun _ => none) (some ["/docs"])
          (includeFilterStep (fun _ => none) (some ["/a"]) ["not a url"]) ↔
      "not a url" ∈ (["not a url"] : List String) ∧
        (some ["/a"]).getD [] = []) :=
  C10_unparseable_url_asymmetry (fun _ => none) (some ["/a"]) (some ["/docs"])
    ["not a url"] "not a url" rfl

/-! ## Claim C4: wizard gating on explicit flags -/

/-- The claim's reading of "no explicit flags": everything unset and the
format selection is exactly the just-default `markdown` alone (or absent). -/
def NoExplicitFlagsClaim (opts : ScrapeOpts) (all : AllScrapeOpts) : Prop :=
  all.yes = false ∧ all.limit = none ∧ all.includePaths = none ∧
  all.excludePaths = none ∧
  (opts.formats = [] ∨ opts.formats = ["markdown"]) ∧
  opts.screenshot = false ∧ opts.fullPageScreenshot = false ∧
  opts.onlyMainContent = false

/-- What the code actually tests: the format selection counts as explicit only
when it is non-empty and its FIRST entry is not `markdown`. -/
def NoExplicitFlagsAmended (opts : ScrapeOpts) (all : AllScrapeOpts) : Prop :=
  all.yes = false ∧ all.limit = none ∧ all.includePaths = none ∧
  all.excludePaths = none ∧
  (opts.formats = [] ∨ opts.formats.head? = some "markdown") ∧
  opts.screenshot = false ∧ opts.fullPageScreenshot = false ∧
  opts.onlyMainContent = false

/-- C4 counterexample: with the explicit non-default format selection
`markdown,html` (and everything else unset) on a TTY, the wizard is STILL
entered, refuting "any other explicit format selection counts as explicit
flags and skips the wizard". -/
theorem C4_counterexample :
    wizardEntered ⟨["markdown", "html"], false, false, false⟩
        ⟨none, false, none, none⟩ true = true ∧
      ¬ NoExplicitFlagsClaim ⟨["markdown", "html"], false, false, false⟩
          ⟨none, false, none, none⟩ := by
  constructor
  · decide
  · intro h
    rcases h.2.2.2.2.1 with h5 | h5 <;> simp at h5

/-- C4 amended: the wizard is entered iff stdin is a TTY and no explicit flag
is set, where a format selection counts as explicit exactly when it is
non-empty with a first entry other than `markdown`. -/
theorem C4_wizard_gate_amended (opts : ScrapeOpts) (all : AllScrapeOpts)
    (tty : Bool) :
    wizardEntered opts all tty = true ↔
      tty = true ∧ NoExplicitFlagsAmended opts all := by
  unfold wizardEntered hasExplicitFlags NoExplicitFlagsAmended
  cases hf : opts.formats with
  | nil =>
    simp [hf, Bool.and_eq_true, Bool.not_eq_true', Bool.or_eq_false_iff,
      Option.not_isSome_iff_eq_none, Option.isNone_iff_eq_none]
    tauto
  | cons f fs =>
    simp [hf, Bool.and_eq_true, Bool.not_eq_true', Bool.or_eq_false_iff,
      Option.not_isSome_iff_eq_none, Option.isNone_iff_eq_none,
      bne_eq_false_iff_eq]
    tauto

/-- C4 witness: the amended equivalence applied at the bare default options. -/
theorem C4_wizard_gate_amended_witness :
    wizardEntered ⟨["markdown"], false, false, false⟩
        ⟨none, false, none, none⟩ true = true ↔
      true = true ∧
        NoExplicitFlagsAmended ⟨["markdown"], false, false, false⟩
          ⟨none, false, none, none⟩ :=
  C4_wizard_gate_amended ⟨["markdown"], false, false, false⟩
    ⟨none, false, none, none⟩ true

/-! ## Claims C3 and C5: exit codes and the preflight credit check -/

theorem handleAllScrape_exec_eq (env : ScrapeEnv) (opts : ScrapeOpts)
    (all : AllScrapeOpts) (links urls3 : List String)
    (hm : env.mapLinks = some links) (hne : links ≠ [])
    (hflt : filterPhase env opts all links ≠ [])
    (hcf : creditFailure env (limitPhase all (filterPhase env opts all links)) = false)
    (hcp : confirmPhase env all.yes (limitPhase all (filterPhase env opts all links)) =
      some urls3) :
    handleAllScrapeCommand env opts all = execPhase env urls3 := by
  simp only [handleAllScrapeCommand, hm]
  rw [if_neg (by simpa [List.isEmpty_iff] using hne),
    if_neg (by simpa [List.isEmpty_iff] using hflt), hcf]
  simp only [Bool.false_eq_true, if_false, hcp]

theorem handleAllScrape_abort_eq (env : ScrapeEnv) (opts : ScrapeOpts)
    (all : AllScrapeOpts) (links : List String)
    (hm : env.mapLinks = some links) (hne : links ≠ [])
    (hflt : filterPhase env opts all links ≠ [])
    (hcf : creditFailure env (limitPhase all (filterPhase env opts all links)) = false)
    (hcp : confirmPhase env all.yes (limitPhase all (filterPhase env opts all links)) =
      none) :
    handleAllScrapeCommand env opts all = ⟨0, [], ["Aborted."]⟩ := by
  simp only [handleAllScrapeCommand, hm]
  rw [if_neg (by simpa [List.isEmpty_iff] using hne),
    if_neg (by simpa [List.isEmpty_iff] using hflt), hcf]
  simp only [Bool.false_eq_true, if_false, hcp]

/-- C3: the orchestrator's exit code is 1 on map failure, on an empty mapped
or filtered URL set, on a failed credit preflight, and when every scraped URL
fails; it is 0 on a user abort (non-numeric, non-"y" answer) and whenever at
least one URL succeeds — and a mixed run additionally shows a failure tally. -/
theorem C3_exit_codes (env : ScrapeEnv) (opts : ScrapeOpts) (all : AllScrapeOpts) :
    (env.mapLinks = none → (handleAllScrapeCommand env opts all).exitCode = 1) ∧
    (env.mapLinks = some [] → (handleAllScrapeCommand env opts all).exitCode = 1) ∧
    (∀ links, env.mapLinks = some links → links ≠ [] →
      filterPhase env opts all links = [] →
      (handleAllScrapeCommand env opts all).exitCode = 1) ∧
    (∀ links, env.mapLinks = some links → links ≠ [] →
      filterPhase env opts all links ≠ [] →
      creditFailure env (limitPhase all (filterPhase env opts all links)) = true →
      (handleAllScrapeCommand env opts all).exitCode = 1) ∧
    (∀ links, env.mapLinks = some links → links ≠ [] →
      filterPhase env opts all links ≠ [] →
      creditFailure env (limitPhase all (filterPhase env opts all links)) = false →
      all.yes = false → parseIntJs env.answer = none → jsToLower env.answer ≠ "y" →
      (handleAllScrapeCommand env opts all).exitCode = 0) ∧
    (∀ links urls3, env.mapLinks = some links → links ≠ [] →
      filterPhase env opts all links ≠ [] →
      creditFailure env (limitPhase all (filterPhase env opts all links)) = false →
      confirmPhase env all.yes (limitPhase all (filterPhase env opts all links)) =
        some urls3 →
      ((∀ u ∈ urls3, env.scrapeOk u = false) →
        (handleAllScrapeCommand env opts all).exitCode = 1) ∧
      ((∃ u ∈ urls3, env.scrapeOk u = true) →
        (handleAllScrapeCommand env opts all).exitCode = 0) ∧
      ((∃ u ∈ urls3, env.scrapeOk u = true) → (∃ v ∈ urls3, env.scrapeOk v = false) →
        (handleAllScrapeCommand env opts all).exitCode = 0 ∧
        ∃ k, 0 < k ∧
          (", " ++ toString k ++ " failed") ∈
            (handleAllScrapeCommand env opts all).messages)) := by
  refine ⟨?_, ?_, ?_, ?_, ?_, ?_⟩
  · intro hm
    simp only [handleAllScrapeCommand, hm]
  · intro hm
    simp only [handleAllScrapeCommand, hm, List.isEmpty_nil, if_true]
  · intro links hm hne hflt
    simp only [handleAllScrapeCommand, hm]
    rw [if_neg (by simpa [List.isEmpty_iff] using hne)]
    rw [if_pos (by simp [List.isEmpty_iff, hflt])]
  · intro links hm hne hflt hcf
    simp only [handleAllScrapeCommand, hm]
    rw [if_neg (by simpa [List.isEmpty_iff] using hne),
      if_neg (by simpa [List.isEmpty_iff] using hflt), hcf]
    rfl
  · intro links hm hne hflt hcf hyes hnum hy
    have hcp : confirmPhase env all.yes
        (limitPhase all (filterPhase env opts all links)) = none := by
      simp [confirmPhase, hyes, hnum, hy]
    rw [handleAllScrape_abort_eq env opts all links hm hne hflt hcf hcp]
  · intro links urls3 hm hne hflt hcf hcp
    rw [handleAllScrape_exec_eq env opts all links urls3 hm hne hflt hcf hcp]
    refine ⟨?_, ?_, ?_⟩
    · intro hall
      have herr : (urls3.filter (fun u => !(env.scrapeOk u))).length =
          urls3.length := by
        rw [List.filter_length_eq_length]
        intro a ha
        simp [hall a ha]
      simp [execPhase, herr]
    · rintro ⟨u, hu, hok⟩
      have hlt : (urls3.filter (fun u => !(env.scrapeOk u))).length <
          urls3.length :=
        List.length_filter_lt_length_iff_exists.mpr ⟨u, hu, by simp [hok]⟩
      simp [execPhase, Nat.ne_of_lt hlt]
    · rintro ⟨u, hu, hok⟩ ⟨v, hv, hbad⟩
      have hlt : (urls3.filter (fun u => !(env.scrapeOk u))).length <
          urls3.length :=
        List.length_filter_lt_length_iff_exists.mpr ⟨u, hu, by simp [hok]⟩
      have hpos : 0 < (urls3.filter (fun u => !(env.scrapeOk u))).length := by
        rw [List.length_pos]
        intro hemp
        have : v ∈ urls3.filter (fun u => !(env.scrapeOk u)) := by
          rw [List.mem_filter]
          exact ⟨hv, by simp [hbad]⟩
        simp [hemp] at this
      refine ⟨by simp [execPhase, Nat.ne_of_lt hlt], ?_⟩
      refine ⟨(urls3.filter (fun u => !(env.scrapeOk u))).length, hpos, ?_⟩
      simp [execPhase, hpos]

/-- Concrete run for witnesses: two URLs, one succeeding and one failing,
confirmation skipped with `--yes`. -/
def envMixed : ScrapeEnv :=
  ⟨some ["a", "b"], false, id, some 10, "", fun u => u == "a", fun _ => some "/"⟩

/-- Concrete run for witnesses: the user answers `n` at the confirmation. -/
def envAbort : ScrapeEnv :=
  ⟨some ["a", "b"], false, id, some 10, "n", fun _ => true, fun _ => some "/"⟩

/-- Concrete run for witnesses: the map call failed. -/
def envMapFail : ScrapeEnv :=
  ⟨none, false, id, none, "", fun _ => true, fun _ => none⟩

/-- C3 witness: the exit-code theorem applied at a failed map, a user abort,
and a mixed success/failure run. -/
theorem C3_exit_codes_witness :
    (handleAllScrapeCommand envMapFail ⟨[], false, false, false⟩
        ⟨none, false, none, none⟩).exitCode = 1 ∧
    (handleAllScrapeCommand envAbort ⟨[], false, false, false⟩
        ⟨none, false, none, none⟩).exitCode = 0 ∧
    (handleAllScrapeCommand envMixed ⟨[], false, false, false⟩
        ⟨none, true, none, none⟩).exitCode = 0 ∧
    ∃ k, 0 < k ∧
      (", " ++ toString k ++ " failed") ∈
        (handleAllScrapeCommand envMixed ⟨[], false, false, false⟩
          ⟨none, true, none, none⟩).messages := by
  refine ⟨?_, ?_, ?_⟩
  · exact (C3_exit_codes envMapFail ⟨[], false, false, false⟩
      ⟨none, false, none, none⟩).1 rfl
  · exact (C3_exit_codes envAbort ⟨[], false, false, false⟩
      ⟨none, false, none, none⟩).2.2.2.2.1 ["a", "b"] rfl (by decide)
      (by decide) (by decide) rfl (by decide) (by decide)
  · have h := ((C3_exit_codes envMixed ⟨[], false, false, false⟩
      ⟨none, true, none, none⟩).2.2.2.2.2 ["a", "b"] ["a", "b"] rfl
      (by decide) (by decide) (by decide) (by decide)).2.2
      ⟨"a", by decide, by decide⟩ ⟨"b", by decide, by decide⟩
    exact ⟨h.1, h.2⟩

theorem toList_append (a b : String) : (a ++ b).toList = a.toList ++ b.toList :=
  rfl

/-- C5: when the account status reports fewer remaining credits than URLs to
scrape, the run exits 1 before any scrape call is issued, with a single error
message containing both the URL count and the remaining-credit count. -/
theorem C5_credit_preflight (env : ScrapeEnv) (opts : ScrapeOpts)
    (all : AllScrapeOpts) (links : List String) (r : Nat)
    (hm : env.mapLinks = some links) (hne : links ≠ [])
    (hflt : filterPhase env opts all links ≠ [])
    (hcr : env.statusCredits = some r)
    (hgt : r < (limitPhase all (filterPhase env opts all links)).length) :
    (handleAllScrapeCommand env opts all).exitCode = 1 ∧
    (handleAllScrapeCommand env opts all).attempted = [] ∧
    (handleAllScrapeCommand env opts all).messages =
      [creditErrMsg (limitPhase all (filterPhase env opts all links)).length r] ∧
    (toString (limitPhase all (filterPhase env opts all links)).length).toList <:+:
      (creditErrMsg (limitPhase all (filterPhase env opts all links)).length r).toList ∧
    (toString r).toList <:+:
      (creditErrMsg (limitPhase all (filterPhase env opts all links)).length r).toList := by
  have hcf : creditFailure env (limitPhase all (filterPhase env opts all links)) =
      true := by
    simp [creditFailure, hcr, hgt]
  have hrun : handleAllScrapeCommand env opts all =
      ⟨1, [],
        [creditErrMsg (limitPhase all (filterPhase env opts all links)).length r]⟩ := by
    simp only [handleAllScrapeCommand, hm]
    rw [if_neg (by simpa [List.isEmpty_iff] using hne),
      if_neg (by simpa [List.isEmpty_iff] using hflt), hcf]
    simp [hcr]
  refine ⟨by rw [hrun], by rw [hrun], by rw [hrun], ?_, ?_⟩
  · refine ⟨"Error: Not enough credits. Need ".toList,
      (", have " ++ toString r ++ ".").toList, ?_⟩
    simp [creditErrMsg, toList_append, List.append_assoc]
  · refine ⟨("Error: Not enough credits. Need " ++
      toString (limitPhase all (filterPhase env opts all links)).length ++
      ", have ").toList, ".".toList, ?_⟩
    simp [creditErrMsg, toList_append, List.append_assoc]

/-- Preflight witness environment: 50 URLs mapped, 30 credits remaining. -/
def envCredit : ScrapeEnv :=
  ⟨some (List.replicate 50 "u"), false, id, some 30, "", fun _ => true,
    fun _ => some "/"⟩

/-- C5 witness: the spec's 50-URLs / 30-credits example. -/
theorem C5_credit_preflight_witness :
    (handleAllScrapeCommand envCredit ⟨[], false, false, false⟩
        ⟨none, true, none, none⟩).exitCode = 1 ∧
    (handleAllScrapeCommand envCredit ⟨[], false, false, false⟩
        ⟨none, true, none, none⟩).attempted = [] ∧
    (handleAllScrapeCommand envCredit ⟨[], false, false, false⟩
        ⟨none, true, none, none⟩).messages =
      [creditErrMsg
        (limitPhase ⟨none, true, none, none⟩
          (filterPhase envCredit ⟨[], false, false, false⟩
            ⟨none, true, none, none⟩ (List.replicate 50 "u"))).length 30] ∧
    (toString
        (limitPhase ⟨none, true, none, none⟩
          (filterPhase envCredit ⟨[], false, false, false⟩
            ⟨none, true, none, none⟩ (List.replicate 50 "u"))).length).toList <:+:
      (creditErrMsg
        (limitPhase ⟨none, true, none, none⟩
          (filterPhase envCredit ⟨[], false, false, false⟩
            ⟨none, true, none, none⟩ (List.replicate 50 "u"))).length 30).toList ∧
    (toString 30).toList <:+:
      (creditErrMsg
        (limitPhase ⟨none, true, none, none⟩
          (filterPhase envCredit ⟨[], false, false, false⟩
            ⟨none, true, none, none⟩ (List.replicate 50 "u"))).length 30).toList :=
  C5_credit_preflight envCredit ⟨[], false, false, false⟩ ⟨none, true, none, none⟩
    (List.replicate 50 "u") 30 rfl (by decide) (by decide) rfl (by decide)

/-! ## Claim C1: the bounded worker pool (scrape.ts 762-878)

The execution phase spawns `min(maxConcurrency, urls.length)` copies of
`runWorker`, each looping `while (urlIndex < urls.length) { const u =
urls[urlIndex++]; await processUrl(u); }` on one event loop.  The claim
(`urlIndex` is read and incremented with no `await` in between) makes the
claim step atomic; a worker suspends only while its scrape is pending.  We
model the pool as a small-step transition system over worker statuses. -/

/-- Status of one logical worker: about to test the loop condition, awaiting
the scrape of URL index `i`, or exited. -/
inductive WStatus where
  | atLoop : WStatus
  | pending : Nat → WStatus
  | finished : WStatus
deriving DecidableEq

/-- Pool state: the shared cursor `urlIndex`, the workers (identity is
irrelevant, hence a multiset), and the multiset of completed URL indices. -/
structure PoolState where
  cursor : Nat
  workers : Multiset WStatus
  scraped : Multiset Nat
deriving DecidableEq

/-- Initial state: cursor 0, `min C K` workers at the loop head, nothing
scraped — `Array.from({length: Math.min(maxConcurrency, urls.length)}, () =>
runWorker())`. -/
def initState (C K : Nat) : PoolState :=
  ⟨0, Multiset.replicate (min C K) WStatus.atLoop, 0⟩

/-- One cooperative step of the pool over K URLs: a worker at the loop head
atomically claims the cursor (`urls[urlIndex++]`, no await in between) when
URLs remain, or exits its loop when none do; a pending worker's scrape
resolves, recording its index and returning it to the loop head. -/
inductive Step (K : Nat) : PoolState → PoolState → Prop where
  | claim (cur : Nat) (rest : Multiset WStatus) (scraped : Multiset Nat)
      (h : cur < K) :
      Step K ⟨cur, WStatus.atLoop ::ₘ rest, scraped⟩
        ⟨cur + 1, WStatus.pending cur ::ₘ rest, scraped⟩
  | exit (cur : Nat) (rest : Multiset WStatus) (scraped : Multiset Nat)
      (h : ¬ cur < K) :
      Step K ⟨cur, WStatus.atLoop ::ₘ rest, scraped⟩
        ⟨cur, WStatus.finished ::ₘ rest, scraped⟩
  | complete (cur i : Nat) (rest : Multiset WStatus) (scraped : Multiset Nat) :
      Step K ⟨cur, WStatus.pending i ::ₘ rest, scraped⟩
        ⟨cur, WStatus.atLoop ::ₘ rest, i ::ₘ scraped⟩

/-- All pool states reachable from the initial state under any cooperative
schedule. -/
def Reachable (C K : Nat) (s : PoolState) : Prop :=
  Relation.ReflTransGen (Step K) (initState C K) s

/-- The URL index a worker currently holds, as a multiset (empty unless the
worker has a scrape pending). -/
def claimsOf : WStatus → Multiset Nat
  | WStatus.pending i => {i}
  | _ => 0

/-- All URL indices with a scrape currently pending. -/
def pendingClaims (ws : Multiset WStatus) : Multiset Nat :=
  ws.bind claimsOf

/-- The number of concurrently pending scrape calls. -/
def pendingCount (ws : Multiset WStatus) : Nat :=
  Multiset.card (pendingClaims ws)

/-- A terminal pool: every worker has exited its loop. -/
def Terminal (s : PoolState) : Prop :=
  ∀ w ∈ s.workers, w = WStatus.finished

/-- The pool invariant: worker count is fixed at `min C K`, the cursor never
passes K, the completed and pending indices together are exactly the claimed
prefix `[0, cursor)` with no duplicates, and once any worker has exited the
cursor is exhausted. -/
def PoolInv (C K : Nat) (s : PoolState) : Prop :=
  Multiset.card s.workers = min C K ∧
  s.cursor ≤ K ∧
  s.scraped + pendingClaims s.workers = Multiset.range s.cursor ∧
  (WStatus.finished ∈ s.workers → s.cursor = K)

theorem pendingClaims_cons (w : WStatus) (ws : Multiset WStatus) :
    pendingClaims (w ::ₘ ws) = claimsOf w + pendingClaims ws := by
  simp [pendingClaims, Multiset.cons_bind]

theorem pendingClaims_replicate_atLoop (n : Nat) :
    pendingClaims (Multiset.replicate n WStatus.atLoop) = 0 := by
  induction n with
  | zero => simp [pendingClaims]
  | succ m ih =>
    rw [Multiset.replicate_succ, pendingClaims_cons, ih]
    rfl

theorem inv_init (C K : Nat) : PoolInv C K (initState C K) := by
  refine ⟨by simp [initState], by simp [initState], ?_, ?_⟩
  · simp [initState, pendingClaims_replicate_atLoop]
  · intro hmem
    have := Multiset.eq_of_mem_replicate hmem
    simp at this

theorem inv_step {C K : Nat} {s t : PoolState} (hstep : Step K s t)
    (hinv : PoolInv C K s) : PoolInv C K t := by
  obtain ⟨hcard, hcur, hclaims, hfin⟩ := hinv
  cases hstep with
  | claim cur rest scraped h =>
    dsimp only at hcard hcur hclaims hfin
    refine ⟨by simpa using hcard, by dsimp only; omega, ?_, ?_⟩
    · rw [pendingClaims_cons] at hclaims ⊢
      simp only [claimsOf] at hclaims ⊢
      rw [Multiset.range_succ]
      rw [Multiset.singleton_add, Multiset.add_cons]
      rw [show (0 : Multiset Nat) + pendingClaims rest = pendingClaims rest
        from zero_add _] at hclaims
      rw [hclaims]
    · intro hmem
      have hmem' : WStatus.finished ∈ rest := by
        rcases Multiset.mem_cons.mp hmem with h' | h'
        · exact absurd h' (by simp)
        · exact h'
      have := hfin (Multiset.mem_cons_of_mem hmem')
      dsimp only
      omega
  | exit cur rest scraped h =>
    dsimp only at hcard hcur hclaims hfin
    refine ⟨by simpa using hcard, hcur, ?_, fun _ => by dsimp only; omega⟩
    rw [pendingClaims_cons] at hclaims ⊢
    simpa [claimsOf] using hclaims
  | complete cur i rest scraped =>
    dsimp only at hcard hcur hclaims hfin
    refine ⟨by simpa using hcard, hcur, ?_, ?_⟩
    · rw [pendingClaims_cons] at hclaims ⊢
      simp only [claimsOf] at hclaims ⊢
      rw [← hclaims, Multiset.singleton_add, Multiset.add_cons,
        Multiset.cons_add]
      rw [zero_add]
    · intro hmem
      have hmem' : WStatus.finished ∈ rest := by
        rcases Multiset.mem_cons.mp hmem with h' | h'
        · exact absurd h' (by simp)
        · exact h'
      exact hfin (Multiset.mem_cons_of_mem hmem')

theorem inv_reachable {C K : Nat} {s : PoolState} (h : Reachable C K s) :
    PoolInv C K s := by
  induction h with
  | refl => exact inv_init C K
  | tail _ hstep ih => exact inv_step hstep ih

theorem card_claimsOf_le_one (w : WStatus) : Multiset.card (claimsOf w) ≤ 1 := by
  cases w <;> simp [claimsOf]

theorem pendingCount_le_card (ws : Multiset WStatus) :
    pendingCount ws ≤ Multiset.card ws := by
  induction ws using Multiset.induction_on with
  | empty => simp [pendingCount, pendingClaims]
  | cons a s ih =>
    rw [pendingCount] at ih ⊢
    rw [pendingClaims_cons, Multiset.card_add, Multiset.card_cons]
    have := card_claimsOf_le_one a
    omega

theorem pendingClaims_of_terminal {ws : Multiset WStatus}
    (h : ∀ w ∈ ws, w = WStatus.finished) : pendingClaims ws = 0 := by
  induction ws using Multiset.induction_on with
  | empty => simp [pendingClaims]
  | cons a s ih =>
    rw [pendingClaims_cons]
    rw [h a (Multiset.mem_cons_self a s)]
    rw [ih fun w hw => h w (Multiset.mem_cons_of_mem hw)]
    rfl

/-- C1: in every reachable pool state the worker count is exactly `min C K`
and at most `min C K` scrape calls are pending; and in every terminal state of
a non-degenerate run the cursor has claimed all K URLs and each URL index in
`[0, K)` was scraped exactly once (and nothing else was). -/
theorem C1_worker_pool (C K : Nat) (s : PoolState) (hr : Reachable C K s) :
    Multiset.card s.workers = min C K ∧
    pendingCount s.workers ≤ min C K ∧
    (0 < C → 0 < K → Terminal s →
      s.cursor = K ∧ s.scraped = Multiset.range K ∧
      (∀ i, i < K → s.scraped.count i = 1) ∧
      (∀ i, K ≤ i → s.scraped.count i = 0)) := by
  obtain ⟨hcard, hcur, hclaims, hfin⟩ := inv_reachable hr
  refine ⟨hcard, le_trans (pendingCount_le_card _) (le_of_eq hcard), ?_⟩
  intro hC hK hterm
  have hne : s.workers ≠ 0 := by
    intro h0
    rw [h0] at hcard
    simp at hcard
    omega
  obtain ⟨w, hw⟩ := Multiset.exists_mem_of_ne_zero hne
  have hwfin := hterm w hw
  have hcurK : s.cursor = K := hfin (hwfin ▸ hw)
  have hpend : pendingClaims s.workers = 0 := pendingClaims_of_terminal hterm
  have hscr : s.scraped = Multiset.range K := by
    rw [hpend, add_zero] at hclaims
    rw [hclaims, hcurK]
  refine ⟨hcurK, hscr, ?_, ?_⟩
  · intro i hi
    rw [hscr]
    exact Multiset.count_eq_one_of_mem (Multiset.nodup_range K)
      (Multiset.mem_range.mpr hi)
  · intro i hi
    rw [hscr]
    refine Multiset.count_eq_zero.mpr ?_
    rw [Multiset.mem_range]
    omega

/-- C1 witness: a complete run with one worker over one URL, reaching the
terminal state where URL 0 was scraped exactly once. -/
theorem C1_worker_pool_witness :
    Multiset.card
        (PoolState.mk 1 (WStatus.finished ::ₘ 0) ((0 : Nat) ::ₘ 0)).workers =
      min 1 1 ∧
    pendingCount
        (PoolState.mk 1 (WStatus.finished ::ₘ 0) ((0 : Nat) ::ₘ 0)).workers ≤
      min 1 1 ∧
    ((PoolState.mk 1 (WStatus.finished ::ₘ 0) ((0 : Nat) ::ₘ 0)).cursor = 1 ∧
      (PoolState.mk 1 (WStatus.finished ::ₘ 0) ((0 : Nat) ::ₘ 0)).scraped =
        Multiset.range 1 ∧
      (∀ i, i < 1 →
        (PoolState.mk 1 (WStatus.finished ::ₘ 0) ((0 : Nat) ::ₘ 0)).scraped.count i = 1) ∧
      (∀ i, 1 ≤ i →
        (PoolState.mk 1 (WStatus.finished ::ₘ 0) ((0 : Nat) ::ₘ 0)).scraped.count i = 0)) := by
  have hreach : Reachable 1 1 ⟨1, WStatus.finished ::ₘ 0, (0 : Nat) ::ₘ 0⟩ := by
    unfold Reachable
    have e : initState 1 1 = ⟨0, WStatus.atLoop ::ₘ 0, 0⟩ := by decide
    rw [e]
    refine Relation.ReflTransGen.head (Step.claim 0 0 0 (by decide)) ?_
    refine Relation.ReflTransGen.head (Step.complete 1 0 0 0) ?_
    exact Relation.ReflTransGen.head (Step.exit 1 0 ((0 : Nat) ::ₘ 0) (by decide))
      Relation.ReflTransGen.refl
  have h := C1_worker_pool 1 1 ⟨1, WStatus.finished ::ₘ 0, (0 : Nat) ::ₘ 0⟩ hreach
  refine ⟨h.1, h.2.1, h.2.2 (by decide) (by decide) ?_⟩
  intro w hw
  simpa using Multiset.mem_singleton.mp hw
